import Mathlib

/-!
Shallow embedding of the EXIF metadata extractor and the duplicate-file
detector of this repository, together with proofs about the embedded
functions.

Modelling conventions, chosen to follow JavaScript semantics as the source
runs under Node:

* A byte buffer is a `List Nat`; every byte of a real Node `Buffer` lies in
  `[0, 256)`.  Indexing `buffer[i]` out of range (or at a negative index)
  yields `undefined` in JavaScript, never an exception; we model the access
  as `jsIndex : List Nat → Int → Option Nat` with `none` for `undefined`.
* JavaScript bitwise operators (`|`, `<<`) convert their operands with
  `ToInt32` (and `ToInt32 undefined = 0`) and produce a signed 32-bit
  result; `toInt32`, `jsOr` and `jsShl` model this exactly, with machine
  integers as `Int` reduced modulo `2 ^ 32`.
* JavaScript numbers are IEEE doubles.  All values the claims inspect are
  either integers far below `2 ^ 53` (exact in a double) or results of the
  degenerate `denominator = 0` branch; we embed numbers as `ℚ` with exact
  division and note the spots where double rounding is not modelled.
* Strings read from buffers are kept as lists of character codes
  (`List Nat`); `String.fromCharCode(undefined)` is `"\x00"` (code 0).
-/

/-! ## JavaScript primitive semantics -/

/-- `buffer[i]` for a Node `Buffer`: `undefined` (`none`) outside `[0, length)`. -/
def jsIndex (b : List Nat) (i : Int) : Option Nat :=
  if i < 0 then none else b.get? i.toNat

/-- `ToInt32`: reduce an integer into `[-2^31, 2^31)`. -/
def toInt32 (n : Int) : Int :=
  let m := n % 4294967296
  if m < 2147483648 then m else m - 4294967296

/-- The unsigned 32-bit pattern of an integer (used as the operand of a
bitwise operator). -/
def toUint32 (n : Int) : Nat :=
  (n % 4294967296).toNat

/-- JavaScript `a | b` on numbers. -/
def jsOr (a b : Int) : Int :=
  toInt32 (Int.ofNat (Nat.lor (toUint32 a) (toUint32 b)))

/-- JavaScript `a << k` on numbers, for a shift count already in `[0, 32)`. -/
def jsShl (a : Int) (k : Nat) : Int :=
  toInt32 (Int.ofNat ((toUint32 a) <<< k))

/-- A buffer byte as the number a bitwise operator sees: `undefined`
coerces to `0`, an in-range byte to itself. -/
def byteAt (b : List Nat) (i : Int) : Int :=
  Int.ofNat ((jsIndex b i).getD 0)

/-- JavaScript `Math.round`: floor of `x + 1/2` (round half toward `+∞`). -/
def jsRound (q : ℚ) : Int :=
  Int.floor (q + 1/2)

/-! ## Byte Reader (source: readUShort / readULong / readRational /
readSRational / readString) -/

/-- `readUShort(buffer, offset, littleEndian)`:
`buffer[offset] | (buffer[offset+1] << 8)` little-endian,
`(buffer[offset] << 8) | buffer[offset+1]` big-endian. -/
def readUShort (b : List Nat) (offset : Int) (littleEndian : Bool) : Int :=
  if littleEndian then
    jsOr (byteAt b offset) (jsShl (byteAt b (offset + 1)) 8)
  else
    jsOr (jsShl (byteAt b offset) 8) (byteAt b (offset + 1))

/-- `readULong(buffer, offset, littleEndian)`: four bytes combined with the
32-bit `|` and `<<` of JavaScript (hence a signed 32-bit result). -/
def readULong (b : List Nat) (offset : Int) (littleEndian : Bool) : Int :=
  if littleEndian then
    jsOr (jsOr (jsOr (byteAt b offset) (jsShl (byteAt b (offset + 1)) 8))
        (jsShl (byteAt b (offset + 2)) 16))
      (jsShl (byteAt b (offset + 3)) 24)
  else
    jsOr (jsOr (jsOr (jsShl (byteAt b offset) 24) (jsShl (byteAt b (offset + 1)) 16))
        (jsShl (byteAt b (offset + 2)) 8))
      (byteAt b (offset + 3))

/-- `readRational`: two unsigned longs, `denominator ? n / d : 0`.  Division
of two 32-bit integers is embedded as exact division in `ℚ` (the double
rounding of the quotient is not modelled; no claim inspects a non-degenerate
quotient). -/
def readRational (b : List Nat) (offset : Int) (littleEndian : Bool) : ℚ :=
  let numerator := readULong b offset littleEndian
  let denominator := readULong b (offset + 4) littleEndian
  if denominator = 0 then 0 else (numerator : ℚ) / (denominator : ℚ)

/-- `readSRational`: like `readRational` but with the source's
convert-to-signed step (`if (x > 0x7FFFFFFF) x -= 0x100000000`) kept as
written. -/
def readSRational (b : List Nat) (offset : Int) (littleEndian : Bool) : ℚ :=
  let numerator0 := readULong b offset littleEndian
  let denominator0 := readULong b (offset + 4) littleEndian
  let numerator := if 2147483647 < numerator0 then numerator0 - 4294967296 else numerator0
  let denominator := if 2147483647 < denominator0 then denominator0 - 4294967296 else denominator0
  if denominator = 0 then 0 else (numerator : ℚ) / (denominator : ℚ)

/-- One character appended by `readString`: `String.fromCharCode` reduces an
in-range code with `ToUint16`; `fromCharCode(undefined)` is the NUL
character. -/
def jsCharCode (c : Option Nat) : Nat :=
  match c with
  | some c => c % 65536
  | none => 0

/-- JavaScript `String.prototype.trim` whitespace, restricted to the code
points a byte-sourced string can contain (TAB, LF, VT, FF, CR, SP, NBSP). -/
def isJsSpace (c : Nat) : Bool :=
  c = 9 || c = 10 || c = 11 || c = 12 || c = 13 || c = 32 || c = 160

/-- `str.trim()` on a list of character codes. -/
def jsTrim (s : List Nat) : List Nat :=
  ((s.dropWhile isJsSpace).reverse.dropWhile isJsSpace).reverse

/-- The character-collecting loop of `readString`: stop at an in-range NUL
byte (`char === 0`); an `undefined` byte does not stop the loop and appends
NUL. -/
def readStringLoop (b : List Nat) (offset : Int) : Nat → List Nat
  | 0 => []
  | n + 1 =>
    match jsIndex b offset with
    | some 0 => []
    | c => jsCharCode c :: readStringLoop b (offset + 1) n

/-- `readString(buffer, offset, length)` (the result `.trim()`med); a
negative `length` runs the loop zero times, as in JavaScript. -/
def readString (b : List Nat) (offset : Int) (length : Int) : List Nat :=
  jsTrim (readStringLoop b offset length.toNat)

/-! ### Byte Reader lemmas -/

theorem jsIndex_append_replicate_getD (b : List Nat) (k : Nat) (i : Int) :
    (jsIndex (b ++ List.replicate k 0) i).getD 0 = (jsIndex b i).getD 0 := by
  unfold jsIndex
  by_cases hneg : i < 0
  · simp [hneg]
  · simp only [hneg, if_false]
    rcases Nat.lt_or_ge i.toNat b.length with hlt | hge
    · rw [List.get?_eq_getElem?, List.get?_eq_getElem?, List.getElem?_append_left hlt]
    · rw [List.get?_eq_getElem?, List.get?_eq_getElem?, List.getElem?_append_right hge]
      rcases Nat.lt_or_ge (i.toNat - b.length) k with h2 | h2
      · simp [List.getElem?_replicate, h2, List.getElem?_eq_none (l := b) hge]
      · simp [List.getElem?_eq_none (l := b) hge,
          List.getElem?_eq_none (l := List.replicate k 0) (by simpa using h2)]

theorem byteAt_append_replicate (b : List Nat) (k : Nat) (i : Int) :
    byteAt (b ++ List.replicate k 0) i = byteAt b i := by
  unfold byteAt
  rw [jsIndex_append_replicate_getD]

theorem jsIndex_eq_none_of_le (b : List Nat) (i : Int) (h : (b.length : Int) ≤ i) :
    jsIndex b i = none := by
  unfold jsIndex
  have h0 : ¬ i < 0 := by omega
  simp only [h0, if_false]
  refine List.get?_eq_none.mpr ?_
  omega

theorem byteAt_eq_zero_of_le (b : List Nat) (i : Int) (h : (b.length : Int) ≤ i) :
    byteAt b i = 0 := by
  unfold byteAt
  rw [jsIndex_eq_none_of_le b i h]
  rfl

/-- C1 helper: a 16-bit read is unchanged by padding the buffer with zero
bytes (an out-of-range byte reads as `undefined` and coerces to `0`). -/
theorem readUShort_append_replicate (b : List Nat) (k : Nat) (off : Int) (e : Bool) :
    readUShort (b ++ List.replicate k 0) off e = readUShort b off e := by
  unfold readUShort
  rw [byteAt_append_replicate, byteAt_append_replicate]

theorem readULong_append_replicate (b : List Nat) (k : Nat) (off : Int) (e : Bool) :
    readULong (b ++ List.replicate k 0) off e = readULong b off e := by
  unfold readULong
  rw [byteAt_append_replicate, byteAt_append_replicate, byteAt_append_replicate,
    byteAt_append_replicate]

theorem readUShort_oob (b : List Nat) (off : Int) (e : Bool)
    (h : (b.length : Int) ≤ off) : readUShort b off e = 0 := by
  unfold readUShort
  rw [byteAt_eq_zero_of_le b off h, byteAt_eq_zero_of_le b (off + 1) (by omega)]
  cases e <;> decide

theorem readULong_oob (b : List Nat) (off : Int) (e : Bool)
    (h : (b.length : Int) ≤ off) : readULong b off e = 0 := by
  unfold readULong
  rw [byteAt_eq_zero_of_le b off h, byteAt_eq_zero_of_le b (off + 1) (by omega),
    byteAt_eq_zero_of_le b (off + 2) (by omega), byteAt_eq_zero_of_le b (off + 3) (by omega)]
  cases e <;> decide

theorem readStringLoop_oob (b : List Nat) (off : Int) (h : (b.length : Int) ≤ off) :
    ∀ n, readStringLoop b off n = List.replicate n 0 := by
  intro n
  induction n generalizing off with
  | zero => rfl
  | succ n ih =>
    unfold readStringLoop
    rw [jsIndex_eq_none_of_le b off h]
    simp [jsCharCode, ih (off + 1) (by omega), List.replicate_succ]

/-- C1 amended claim.  The byte readers never fail on an out-of-range span:
each missing byte reads as `undefined` and coerces to `0` inside the bitwise
arithmetic (to the NUL character in `readString`).  Concretely: every
integer read equals the read over the buffer padded with zero bytes, a read
whose whole span lies past the end returns `0` (rationals: `0`, strings: a
string of NUL characters), and no error value exists anywhere in the byte
reader. -/
theorem byteReader_oob_returns_values :
    (∀ (b : List Nat) (off : Int) (e : Bool) (k : Nat),
      readUShort (b ++ List.replicate k 0) off e = readUShort b off e ∧
      readULong (b ++ List.replicate k 0) off e = readULong b off e ∧
      readRational (b ++ List.replicate k 0) off e = readRational b off e ∧
      readSRational (b ++ List.replicate k 0) off e = readSRational b off e) ∧
    (∀ (b : List Nat) (off : Int) (e : Bool), (b.length : Int) ≤ off →
      readUShort b off e = 0 ∧
      readULong b off e = 0 ∧
      readRational b off e = 0 ∧
      readSRational b off e = 0 ∧
      ∀ len : Int, readString b off len = List.replicate len.toNat 0) := by
  constructor
  · intro b off e k
    refine ⟨readUShort_append_replicate b k off e, readULong_append_replicate b k off e, ?_, ?_⟩
    · unfold readRational
      rw [readULong_append_replicate, readULong_append_replicate]
    · unfold readSRational
      rw [readULong_append_replicate, readULong_append_replicate]
  · intro b off e h
    have h4 : (b.length : Int) ≤ off + 4 := by omega
    refine ⟨readUShort_oob b off e h, readULong_oob b off e h, ?_, ?_, ?_⟩
    · unfold readRational
      rw [readULong_oob b off e h, readULong_oob b (off + 4) e h4]
      simp
    · unfold readSRational
      rw [readULong_oob b off e h, readULong_oob b (off + 4) e h4]
      simp
    · intro len
      unfold readString
      rw [readStringLoop_oob b off h]
      have : ∀ n, jsTrim (List.replicate n 0) = List.replicate n 0 := by
        intro n
        unfold jsTrim
        have hdw : ∀ m, (List.replicate m (0 : Nat)).dropWhile isJsSpace =
            List.replicate m 0 := by
          intro m
          cases m with
          | zero => rfl
          | succ m => simp [List.replicate_succ, List.dropWhile_cons, isJsSpace]
        rw [hdw, List.reverse_replicate, hdw, List.reverse_replicate]
      exact this len.toNat

/-- C1 counterexample to the claim as stated: a `readUShort` whose 2-byte
span lies entirely past the end of the (empty) buffer does not fail: it
returns the value `0`. -/
theorem readUShort_empty_returns_zero : readUShort [] 0 true = 0 := by decide

/-- Closed witness for `byteReader_oob_returns_values`. -/
theorem byteReader_oob_returns_values_witness :
    readUShort [] 0 true = 0 ∧ readString [] 0 2 = [0, 0] :=
  ⟨(byteReader_oob_returns_values.2 [] 0 true (by decide)).1,
    (byteReader_oob_returns_values.2 [] 0 true (by decide)).2.2.2.2 2⟩

/-- C2: at little-endian bytes `[0x00, 0x00, 0x00, 0x80]` the source's
`readULong` returns the negative number `-2147483648`, not the unsigned
value `2147483648`: the 32-bit `|` / `<<` chain of JavaScript produces a
signed result, so every most-significant byte `≥ 0x80` yields a negative
"unsigned" long. -/
theorem readULong_msb_is_negative : readULong [0, 0, 0, 128] 0 true = -2147483648 := by
  decide

/-- C7: whenever the decoded denominator (the unsigned long four bytes past
`offset`) is zero, `readRational` and `readSRational` both return exactly
`0` — no error, and no NaN or infinity value exists in the embedding. -/
theorem rational_zero_denominator (b : List Nat) (off : Int) (e : Bool)
    (h : readULong b (off + 4) e = 0) :
    readRational b off e = 0 ∧ readSRational b off e = 0 := by
  constructor
  · unfold readRational
    rw [h]
    simp
  · unfold readSRational
    rw [h]
    simp

/-- Closed witness for `rational_zero_denominator`. -/
theorem rational_zero_denominator_witness :
    readRational [] 0 true = 0 ∧ readSRational [] 0 true = 0 :=
  rational_zero_denominator [] 0 true (by decide)

/-! ## EXIF tag vocabulary (source: the single merged `EXIF_TAGS` object,
image + EXIF + GPS tags in one map) -/

/-- `EXIF_TAGS[tag]`: the one merged numeric-id → name table of the source. -/
def EXIF_TAGS (tag : Int) : Option String :=
  if tag = 0x010F then some "make"
  else if tag = 0x0110 then some "model"
  else if tag = 0x0112 then some "orientation"
  else if tag = 0x011A then some "xResolution"
  else if tag = 0x011B then some "yResolution"
  else if tag = 0x0128 then some "resolutionUnit"
  else if tag = 0x0131 then some "software"
  else if tag = 0x0132 then some "dateTime"
  else if tag = 0x013B then some "artist"
  else if tag = 0x8298 then some "copyright"
  else if tag = 0x829A then some "exposureTime"
  else if tag = 0x829D then some "fNumber"
  else if tag = 0x8822 then some "exposureProgram"
  else if tag = 0x8827 then some "isoSpeedRatings"
  else if tag = 0x9000 then some "exifVersion"
  else if tag = 0x9003 then some "dateTimeOriginal"
  else if tag = 0x9004 then some "dateTimeDigitized"
  else if tag = 0x9201 then some "shutterSpeedValue"
  else if tag = 0x9202 then some "apertureValue"
  else if tag = 0x9203 then some "brightnessValue"
  else if tag = 0x9204 then some "exposureBiasValue"
  else if tag = 0x9205 then some "maxApertureValue"
  else if tag = 0x9207 then some "meteringMode"
  else if tag = 0x9208 then some "lightSource"
  else if tag = 0x9209 then some "flash"
  else if tag = 0x920A then some "focalLength"
  else if tag = 0xA001 then some "colorSpace"
  else if tag = 0xA002 then some "pixelXDimension"
  else if tag = 0xA003 then some "pixelYDimension"
  else if tag = 0xA20E then some "focalPlaneXResolution"
  else if tag = 0xA20F then some "focalPlaneYResolution"
  else if tag = 0xA210 then some "focalPlaneResolutionUnit"
  else if tag = 0xA217 then some "sensingMethod"
  else if tag = 0xA300 then some "fileSource"
  else if tag = 0xA301 then some "sceneType"
  else if tag = 0xA401 then some "customRendered"
  else if tag = 0xA402 then some "exposureMode"
  else if tag = 0xA403 then some "whiteBalance"
  else if tag = 0xA404 then some "digitalZoomRatio"
  else if tag = 0xA405 then some "focalLengthIn35mmFilm"
  else if tag = 0xA406 then some "sceneCaptureType"
  else if tag = 0xA408 then some "contrast"
  else if tag = 0xA409 then some "saturation"
  else if tag = 0xA40A then some "sharpness"
  else if tag = 0xA430 then some "cameraOwnerName"
  else if tag = 0xA431 then some "bodySerialNumber"
  else if tag = 0xA432 then some "lensSpecification"
  else if tag = 0xA433 then some "lensMake"
  else if tag = 0xA434 then some "lensModel"
  else if tag = 0xA435 then some "lensSerialNumber"
  else if tag = 0x0000 then some "gpsVersionID"
  else if tag = 0x0001 then some "gpsLatitudeRef"
  else if tag = 0x0002 then some "gpsLatitude"
  else if tag = 0x0003 then some "gpsLongitudeRef"
  else if tag = 0x0004 then some "gpsLongitude"
  else if tag = 0x0005 then some "gpsAltitudeRef"
  else if tag = 0x0006 then some "gpsAltitude"
  else if tag = 0x0007 then some "gpsTimeStamp"
  else if tag = 0x001D then some "gpsDateStamp"
  else none

/-- A key of the decoded tag map: a name from `EXIF_TAGS`, or the source's
fallback string built from the numeric id.  JavaScript object keys are
strings; the fallback strings never collide with the table's names, so the
tagged sum is a faithful model of the key space. -/
inductive TagName where
  | named (s : String)
  | raw (tag : Int)
deriving DecidableEq

/-- A decoded tag value (a JavaScript value: number, string, array of
numbers, or a byte slice). -/
inductive JSVal where
  | num (q : ℚ)
  | str (s : List Nat)
  | arr (xs : List ℚ)
  | blob (bytes : List Nat)
deriving DecidableEq

/-- Clamp one end of a `Buffer.slice` index into `[0, length]` (a negative
index counts from the end). -/
def jsClamp (n : Nat) (i : Int) : Nat :=
  if i < 0 then ((n : Int) + i).toNat else min i.toNat n

/-- `buffer.slice(s, e)`. -/
def jsSlice (b : List Nat) (s e : Int) : List Nat :=
  (b.take (jsClamp b.length e)).drop (jsClamp b.length s)

/-! ## IFD Decoder (source: `parseIFD`) -/

/-- Decode one 12-byte directory entry (the body of `parseIFD`'s loop):
its map key and, when the entry yields a value that is neither `null` nor
`undefined`, that value.  `none` models the dropped `null`/`undefined`
values (unrecognized type codes; a BYTE read at a missing offset).  Nothing
in the loop body can throw, so the source's `try`/`catch` has no effect. -/
def parseEntry (b : List Nat) (tiffOffset ifdOffset : Int) (littleEndian : Bool)
    (i : Nat) : TagName × Option JSVal :=
  let entryOffset := tiffOffset + ifdOffset + 2 + (i : Int) * 12
  let tag := readUShort b entryOffset littleEndian
  let typ := readUShort b (entryOffset + 2) littleEndian
  let count := readULong b (entryOffset + 4) littleEndian
  let valueOffset := entryOffset + 8
  let tagName := match EXIF_TAGS tag with
    | some s => TagName.named s
    | none => TagName.raw tag
  let typeSize : Int :=
    if typ = 1 then 1 else if typ = 2 then 1 else if typ = 3 then 2
    else if typ = 4 then 4 else if typ = 5 then 8 else if typ = 7 then 1
    else if typ = 9 then 4 else if typ = 10 then 8 else 1
  let valueSize := typeSize * count
  let dataOffset := if 4 < valueSize then tiffOffset + readULong b valueOffset littleEndian
    else valueOffset
  let value : Option JSVal :=
    if typ = 1 then (jsIndex b dataOffset).map (fun c => JSVal.num c)
    else if typ = 2 then some (JSVal.str (readString b dataOffset count))
    else if typ = 3 then some (JSVal.num (readUShort b dataOffset littleEndian))
    else if typ = 4 then some (JSVal.num (readULong b dataOffset littleEndian))
    else if typ = 5 then
      if count = 1 then some (JSVal.num (readRational b dataOffset littleEndian))
      else some (JSVal.arr ((List.range count.toNat).map
        (fun j => readRational b (dataOffset + (j : Int) * 8) littleEndian)))
    else if typ = 7 then some (JSVal.blob (jsSlice b dataOffset (dataOffset + count)))
    else if typ = 9 then
      let v := readULong b dataOffset littleEndian
      some (JSVal.num (if 2147483647 < v then v - 4294967296 else v))
    else if typ = 10 then some (JSVal.num (readSRational b dataOffset littleEndian))
    else none
  (tagName, value)

/-- `tags[tagName] = value` on the decoded map. -/
def setTag (m : TagName → Option JSVal) (k : TagName) (v : JSVal) :
    TagName → Option JSVal :=
  fun q => if q = k then some v else m q

/-- One iteration of `parseIFD`'s loop over the map accumulator. -/
def parseStep (b : List Nat) (tiffOffset ifdOffset : Int) (littleEndian : Bool)
    (m : TagName → Option JSVal) (i : Nat) : TagName → Option JSVal :=
  match parseEntry b tiffOffset ifdOffset littleEndian i with
  | (k, some v) => setTag m k v
  | (_, none) => m

/-- `parseIFD(buffer, tiffOffset, ifdOffset, littleEndian, isGPS)`: read the
16-bit entry count and fold the loop body over the entries.  The `isGPS`
parameter is declared but — exactly as in the source — never used. -/
def parseIFD (b : List Nat) (tiffOffset ifdOffset : Int) (littleEndian : Bool)
    (isGPS : Bool) : TagName → Option JSVal :=
  let numEntries := readUShort b (tiffOffset + ifdOffset) littleEndian
  (List.range numEntries.toNat).foldl
    (parseStep b tiffOffset ifdOffset littleEndian) (fun _ => none)

/-! ### IFD Decoder theorems (C3, C4) -/

/-- C3 amended claim: the tag-name mapping `parseIFD` applies does NOT
depend on which kind of IFD is walked — the `isGPS` argument is ignored and
the one merged `EXIF_TAGS` vocabulary resolves every tag id, so ids in
`0x0000`–`0x001D` resolve to the GPS names in GPS and non-GPS directories
alike (the merged table avoids collisions only because the image/EXIF ids
all lie at `0x010F` and above). -/
theorem parseIFD_vocabulary_independent_of_kind :
    (∀ (b : List Nat) (t o : Int) (le g1 g2 : Bool),
      parseIFD b t o le g1 = parseIFD b t o le g2) ∧
    EXIF_TAGS 0x0000 = some "gpsVersionID" ∧
    EXIF_TAGS 0x0001 = some "gpsLatitudeRef" ∧
    EXIF_TAGS 0x0002 = some "gpsLatitude" ∧
    EXIF_TAGS 0x001D = some "gpsDateStamp" ∧
    EXIF_TAGS 0x010F = some "make" :=
  ⟨fun _ _ _ _ _ _ => rfl, by decide, by decide, by decide, by decide, by decide⟩

/-- A little-endian directory (TIFF origin 0, IFD offset 0) holding one
entry: tag `0x0001`, type ASCII, count 2, inline value `"N"`.  The source
decodes this directory identically whether or not it is told it is a GPS
directory. -/
def ifdSharedRangeBuf : List Nat :=
  [0x01, 0x00,
   0x01, 0x00,
   0x02, 0x00,
   0x02, 0x00, 0x00, 0x00,
   0x4E, 0x00, 0x00, 0x00]

/-- C3 counterexample to the claim as stated: decoding a NON-GPS directory,
`parseIFD` still resolves tag `0x0001` through the GPS vocabulary (the
entry surfaces under the key `gpsLatitudeRef`, value `"N"`), and passing
`isGPS = true` changes nothing — GPS and non-GPS decoding of the shared
numeric range are conflated. -/
theorem parseIFD_conflates_shared_range :
    parseIFD ifdSharedRangeBuf 0 0 true false (TagName.named "gpsLatitudeRef") =
      some (JSVal.str [0x4E]) ∧
    parseIFD ifdSharedRangeBuf 0 0 true true (TagName.named "gpsLatitudeRef") =
      parseIFD ifdSharedRangeBuf 0 0 true false (TagName.named "gpsLatitudeRef") := by
  constructor
  · decide
  · rfl

theorem foldl_filter_ne {γ : Type} (step : γ → Nat → γ) (i : Nat)
    (hid : ∀ m, step m i = m) :
    ∀ (l : List Nat) (a : γ),
      l.foldl step a = (l.filter (fun j => j ≠ i)).foldl step a := by
  intro l
  induction l with
  | nil => intro a; rfl
  | cons x xs ih =>
    intro a
    by_cases hx : x = i
    · subst hx
      have : (x :: xs).filter (fun j => j ≠ x) = xs.filter (fun j => j ≠ x) := by
        simp [List.filter_cons]
      rw [this, List.foldl_cons, hid a]
      exact ih a
    · have : (x :: xs).filter (fun j => j ≠ i) = x :: xs.filter (fun j => j ≠ i) := by
        simp [List.filter_cons, hx]
      rw [this, List.foldl_cons, List.foldl_cons]
      exact ih (step a x)

/-- C4 amended claim, isolation part: `parseIFD` always returns a map (the
embedding is a total function: no read in the loop body can throw, so the
decode never aborts), and an entry whose decode produces no value (`null`
for an unrecognized type code, `undefined` for a BYTE read at a missing
offset) contributes nothing: the directory decodes exactly as the fold over
the remaining entries, which are decoded unaffected.  (An out-of-bounds
value offset, however, usually does NOT make the decode produce no value —
see the counterexample `parseIFD_oob_pointer_tag_present`.) -/
theorem parseIFD_entry_skip (b : List Nat) (t o : Int) (le g : Bool) (i : Nat)
    (hnone : (parseEntry b t o le i).2 = none) :
    parseIFD b t o le g =
      ((List.range (readUShort b (t + o) le).toNat).filter (fun j => j ≠ i)).foldl
        (parseStep b t o le) (fun _ => none) := by
  unfold parseIFD
  apply foldl_filter_ne
  intro m
  unfold parseStep
  rcases hpe : parseEntry b t o le i with ⟨k, v⟩
  rw [hpe] at hnone
  simp only at hnone
  subst hnone
  rfl

/-- A little-endian directory with two entries: entry 0 has the
unrecognized type code 0 (its value decodes to `null` and is dropped),
entry 1 is an inline SHORT (`resolutionUnit = 2`). -/
def ifdSkipBuf : List Nat :=
  [0x02, 0x00,
   0x12, 0x01, 0x00, 0x00, 0x01, 0x00, 0x00, 0x00, 0x00, 0x00, 0x00, 0x00,
   0x28, 0x01, 0x03, 0x00, 0x01, 0x00, 0x00, 0x00, 0x02, 0x00, 0x00, 0x00]

/-- Closed witness for `parseIFD_entry_skip`. -/
theorem parseIFD_entry_skip_witness :
    (parseEntry ifdSkipBuf 0 0 true 0).2 = none ∧
    parseIFD ifdSkipBuf 0 0 true false =
      ((List.range (readUShort ifdSkipBuf ((0 : Int) + 0) true).toNat).filter
        (fun j => j ≠ 0)).foldl (parseStep ifdSkipBuf 0 0 true) (fun _ => none) :=
  ⟨by decide, parseIFD_entry_skip ifdSkipBuf 0 0 true false 0 (by decide)⟩

/-- A little-endian directory with one entry: tag `0x0112` (orientation),
type SHORT, count 3 (value size 6 forces the pointer path), pointer
`0x1000` — far past the end of the 14-byte buffer. -/
def ifdOobPointerBuf : List Nat :=
  [0x01, 0x00,
   0x12, 0x01,
   0x03, 0x00,
   0x03, 0x00, 0x00, 0x00,
   0x00, 0x10, 0x00, 0x00]

/-- C4 counterexample to the claim as stated: an entry whose value offset is
out of bounds does NOT end up absent from the returned map — the SHORT read
at the missing offset coerces the missing bytes to `0`, so the tag is
present with the degenerate value `0`. -/
theorem parseIFD_oob_pointer_tag_present :
    parseIFD ifdOobPointerBuf 0 0 true false (TagName.named "orientation") =
      some (JSVal.num 0) := by
  decide

/-! ## GPS conversion (source: `gpsToDecimal`) -/

/-- `gpsToDecimal(coords, ref)`: `null` unless `coords` is a 3-element
array; otherwise degrees + minutes/60 + seconds/3600, negated for the
references `"S"` and `"W"`, then `Math.round(x * 1000000) / 1000000`.
(The `!coords || !Array.isArray(coords)` guard is subsumed by taking the
coordinates as a list.) -/
def gpsToDecimal (coords : List ℚ) (ref : String) : Option ℚ :=
  if coords.length ≠ 3 then none
  else
    let degrees := coords.getD 0 0
    let minutes := coords.getD 1 0
    let seconds := coords.getD 2 0
    let decimal := degrees + minutes / 60 + seconds / 3600
    let signed := if ref = "S" ∨ ref = "W" then -decimal else decimal
    some ((jsRound (signed * 1000000) : ℚ) / 1000000)

/-- C8: for every 3-element `[degrees, minutes, seconds]` and reference,
`gpsToDecimal` returns `degrees + minutes/60 + seconds/3600`, negated
exactly when the reference is `"S"` or `"W"`, rounded to 6 decimal digits
(`Math.round(x·10^6)/10^6`); in particular `[40, 26, 46]` with `"N"` gives
`40.446111` and with `"S"` gives `-40.446111`. -/
theorem gpsToDecimal_spec :
    (∀ (d m s : ℚ) (ref : String),
      gpsToDecimal [d, m, s] ref =
        some ((jsRound ((if ref = "S" ∨ ref = "W" then -(d + m / 60 + s / 3600)
          else d + m / 60 + s / 3600) * 1000000) : ℚ) / 1000000)) ∧
    gpsToDecimal [40, 26, 46] "N" = some (40446111 / 1000000 : ℚ) ∧
    gpsToDecimal [40, 26, 46] "S" = some (-(40446111 / 1000000) : ℚ) := by
  refine ⟨fun d m s ref => ?_, ?_, ?_⟩
  · unfold gpsToDecimal
    simp
  · unfold gpsToDecimal jsRound
    simp only [eq_false (by decide : ¬ ("N" = "S" ∨ "N" = "W")), if_false]
    norm_num
  · unfold gpsToDecimal jsRound
    norm_num

/-! ## Metadata Assembler (source: `formatExposureTime`, `formatAperture`
and the `exposure` / `lens` / `image` sub-records of `extractExif`).

The assembler takes the merged raw tag map's relevant entries with their
expected dynamic types (these are numbers for every field below when the
tags decode through the TIFF type codes).  String rendering is kept
structural: each formatted field carries the numbers the source would
interpolate into the display string, which loses no information. -/

/-- Truthiness of an optional number: `undefined`, `0` (and in JavaScript
also `NaN`, which the embedding does not produce here) are falsy. -/
def jsTruthyNum (v : Option ℚ) : Bool :=
  match v with
  | some q => q ≠ 0
  | none => false

/-- `x || null` on an optional number. -/
def orNull (v : Option ℚ) : Option ℚ :=
  if jsTruthyNum v then v else none

/-- The structural content of `formatExposureTime`'s result string:
`"${value}s"` for values ≥ 1, else `"1/${Math.round(1 / value)}s"`. -/
inductive ExposureTimeFmt where
  | seconds (value : ℚ)
  | fraction (denominator : Int)
deriving DecidableEq

/-- `formatExposureTime(value)`: `null` for `undefined` and for `0`. -/
def formatExposureTime (v : Option ℚ) : Option ExposureTimeFmt :=
  match v with
  | none => none
  | some q =>
    if q = 0 then none
    else if 1 ≤ q then some (ExposureTimeFmt.seconds q)
    else some (ExposureTimeFmt.fraction (jsRound (1 / q)))

/-- `formatAperture(value)`: `null` for `undefined` and `0`, else the
`f/X.X` display; the carried number is `value.toFixed(1)` as a rational
(`Math.round`-style tie-breaking, which matches `toFixed` on the doubles
involved). -/
def formatAperture (v : Option ℚ) : Option ℚ :=
  match v with
  | none => none
  | some q => if q = 0 then none else some ((jsRound (q * 10) : ℚ) / 10)

/-- `FLASH_VALUES[code]` (the full lookup table of the source). -/
def FLASH_VALUES (q : ℚ) : Option String :=
  if q = 0x00 then some "No flash"
  else if q = 0x01 then some "Flash fired"
  else if q = 0x05 then some "Flash fired, strobe return not detected"
  else if q = 0x07 then some "Flash fired, strobe return detected"
  else if q = 0x08 then some "Flash on, did not fire"
  else if q = 0x09 then some "Flash on, fired"
  else if q = 0x0D then some "Flash on, fired, return not detected"
  else if q = 0x0F then some "Flash on, fired, return detected"
  else if q = 0x10 then some "Flash off"
  else if q = 0x14 then some "Flash off, did not fire, return not detected"
  else if q = 0x18 then some "Auto, did not fire"
  else if q = 0x19 then some "Auto, fired"
  else if q = 0x1D then some "Auto, fired, return not detected"
  else if q = 0x1F then some "Auto, fired, return detected"
  else if q = 0x20 then some "No flash function"
  else if q = 0x30 then some "Flash off, no flash function"
  else if q = 0x41 then some "Flash fired, red-eye reduction"
  else if q = 0x45 then some "Flash fired, red-eye reduction, return not detected"
  else if q = 0x47 then some "Flash fired, red-eye reduction, return detected"
  else if q = 0x49 then some "Flash on, red-eye reduction"
  else if q = 0x4D then some "Flash on, red-eye reduction, return not detected"
  else if q = 0x4F then some "Flash on, red-eye reduction, return detected"
  else if q = 0x58 then some "Auto, did not fire, red-eye reduction"
  else if q = 0x59 then some "Auto, fired, red-eye reduction"
  else if q = 0x5D then some "Auto, fired, red-eye reduction, return not detected"
  else if q = 0x5F then some "Auto, fired, red-eye reduction, return detected"
  else none

/-- `ORIENTATIONS[code]`. -/
def ORIENTATIONS (q : ℚ) : Option String :=
  if q = 1 then some "Normal"
  else if q = 2 then some "Flipped horizontal"
  else if q = 3 then some "Rotated 180 deg"
  else if q = 4 then some "Flipped vertical"
  else if q = 5 then some "Rotated 90 deg CCW, flipped"
  else if q = 6 then some "Rotated 90 deg CW"
  else if q = 7 then some "Rotated 90 deg CW, flipped"
  else if q = 8 then some "Rotated 90 deg CCW"
  else none

/-- The flash field: a table label, or `Unknown (code)` for a present but
unlisted code. -/
inductive FlashFmt where
  | label (s : String)
  | unknown (code : ℚ)
deriving DecidableEq

/-- The raw tag values the `exposure` sub-record reads. -/
structure ExposureTags where
  exposureTime : Option ℚ
  fNumber : Option ℚ
  isoSpeedRatings : Option ℚ
  exposureBiasValue : Option ℚ
  meteringMode : Option ℚ
  flash : Option ℚ
  whiteBalance : Option ℚ

/-- The assembled `exposure` sub-record (formatted strings carried
structurally). -/
structure ExposureRecord where
  time : Option ExposureTimeFmt
  timeValue : Option ℚ
  aperture : Option ℚ
  apertureValue : Option ℚ
  iso : Option ℚ
  exposureBias : Option (Bool × ℚ)
  meteringMode : Option ℚ
  flash : Option FlashFmt
  whiteBalance : Option String
deriving DecidableEq

/-- The `exposure` block of `extractExif`'s result object. -/
def buildExposure (t : ExposureTags) : ExposureRecord where
  time := formatExposureTime t.exposureTime
  timeValue := orNull t.exposureTime
  aperture := if jsTruthyNum t.fNumber then formatAperture t.fNumber else none
  apertureValue := orNull t.fNumber
  iso := orNull t.isoSpeedRatings
  exposureBias :=
    match t.exposureBiasValue with
    | some q => if q = 0 then none else some (decide (0 < q), (jsRound (q * 10) : ℚ) / 10)
    | none => none
  meteringMode := orNull t.meteringMode
  flash :=
    match t.flash with
    | some q =>
      match FLASH_VALUES q with
      | some s => some (FlashFmt.label s)
      | none => some (FlashFmt.unknown q)
    | none => none
  whiteBalance :=
    match t.whiteBalance with
    | some q => if q = 0 then some "Auto" else if q = 1 then some "Manual" else none
    | none => none

/-- The raw tag values the `lens` sub-record reads (the string-valued
lens make/model/serial tags pass straight through `|| null` and are not
relevant to any claim; they are omitted from the record, as noted). -/
structure LensTags where
  focalLength : Option ℚ
  focalLengthIn35mmFilm : Option ℚ
  maxApertureValue : Option ℚ

/-- The assembled numeric fields of the `lens` sub-record.  `maxAperture`
carries the APEX argument of `Math.pow(2, apex / 2)` (the irrational power
and its `f/X.X` rendering are presentation only). -/
structure LensRecord where
  focalLength : Option ℚ
  focalLength35mm : Option ℚ
  maxAperture : Option ℚ
deriving DecidableEq

/-- The numeric fields of the `lens` block of `extractExif`'s result. -/
def buildLens (t : LensTags) : LensRecord where
  focalLength := if jsTruthyNum t.focalLength then t.focalLength else none
  focalLength35mm :=
    if jsTruthyNum t.focalLengthIn35mmFilm then t.focalLengthIn35mmFilm else none
  maxAperture := if jsTruthyNum t.maxApertureValue then t.maxApertureValue else none

/-- The raw tag values the `image` sub-record reads. -/
structure ImageTags where
  pixelXDimension : Option ℚ
  pixelYDimension : Option ℚ
  orientation : Option ℚ
  colorSpace : Option ℚ

/-- The assembled `image` sub-record. -/
structure ImageRecord where
  width : Option ℚ
  height : Option ℚ
  orientation : Option String
  orientationValue : Option ℚ
  colorSpace : Option String
deriving DecidableEq

/-- The `image` block of `extractExif`'s result. -/
def buildImage (t : ImageTags) : ImageRecord where
  width := orNull t.pixelXDimension
  height := orNull t.pixelYDimension
  orientation :=
    match t.orientation with
    | some q => (ORIENTATIONS q).elim none some
    | none => none
  orientationValue := orNull t.orientation
  colorSpace :=
    match t.colorSpace with
    | some q => if q = 1 then some "sRGB" else if q = 65535 then some "Uncalibrated" else none
    | none => none

/-- C10: a tag that decoded to the numeric value `0` produces an absent
(null) field, indistinguishable from the tag being missing, for exposure
bias, exposure time, f-number, ISO, focal length, max aperture, image
width, image height and orientation; only `flash = 0` (rendered
`No flash`) and `whiteBalance = 0` (rendered `Auto`) survive as present
fields. -/
theorem zero_valued_tags_render_absent :
    ∀ (e : ExposureTags) (l : LensTags) (i : ImageTags),
      (buildExposure { e with exposureTime := some 0 }).time = none ∧
      (buildExposure { e with exposureTime := none }).time = none ∧
      (buildExposure { e with exposureTime := some 0 }).timeValue = none ∧
      (buildExposure { e with exposureTime := none }).timeValue = none ∧
      (buildExposure { e with fNumber := some 0 }).aperture = none ∧
      (buildExposure { e with fNumber := none }).aperture = none ∧
      (buildExposure { e with fNumber := some 0 }).apertureValue = none ∧
      (buildExposure { e with fNumber := none }).apertureValue = none ∧
      (buildExposure { e with isoSpeedRatings := some 0 }).iso = none ∧
      (buildExposure { e with isoSpeedRatings := none }).iso = none ∧
      (buildExposure { e with exposureBiasValue := some 0 }).exposureBias = none ∧
      (buildExposure { e with exposureBiasValue := none }).exposureBias = none ∧
      (buildLens { l with focalLength := some 0 }).focalLength = none ∧
      (buildLens { l with focalLength := none }).focalLength = none ∧
      (buildLens { l with maxApertureValue := some 0 }).maxAperture = none ∧
      (buildLens { l with maxApertureValue := none }).maxAperture = none ∧
      (buildImage { i with pixelXDimension := some 0 }).width = none ∧
      (buildImage { i with pixelXDimension := none }).width = none ∧
      (buildImage { i with pixelYDimension := some 0 }).height = none ∧
      (buildImage { i with pixelYDimension := none }).height = none ∧
      (buildImage { i with orientation := some 0 }).orientation = none ∧
      (buildImage { i with orientation := none }).orientation = none ∧
      (buildImage { i with orientation := some 0 }).orientationValue = none ∧
      (buildImage { i with orientation := none }).orientationValue = none ∧
      (buildExposure { e with flash := some 0 }).flash =
        some (FlashFmt.label "No flash") ∧
      (buildExposure { e with whiteBalance := some 0 }).whiteBalance = some "Auto" := by
  intro e l i
  repeat' apply And.intro
  all_goals
    norm_num [buildExposure, buildLens, buildImage, formatExposureTime,
      formatAperture, orNull, jsTruthyNum, ORIENTATIONS, FLASH_VALUES]

/-! ## Container Locator (source: `findExifInJpeg` and the surrounding
`extractExif` body) -/

/-- The big-endian 2-byte segment length `(buffer[offset+2] << 8) |
buffer[offset+3]` used by the APPn skip. -/
def segLength (b : List Nat) (offset : Int) : Int :=
  jsOr (jsShl (byteAt b (offset + 2)) 8) (byteAt b (offset + 3))

/-- The `"Exif\0\0"` signature check at `buffer[offset+4 .. offset+9]`
(strict equality against `undefined` is false, hence the `some` forms). -/
def exifSig (b : List Nat) (offset : Int) : Bool :=
  jsIndex b (offset + 4) == some 0x45 && jsIndex b (offset + 5) == some 0x78 &&
  jsIndex b (offset + 6) == some 0x69 && jsIndex b (offset + 7) == some 0x66 &&
  jsIndex b (offset + 8) == some 0x00 && jsIndex b (offset + 9) == some 0x00

/-- The scanning `while` loop of `findExifInJpeg`, with an explicit fuel
argument (the loop advances `offset` by at least one per iteration on any
real byte buffer, so `buffer.length + 1` fuel is enough —
`findExifLoop_fuel_adequate` below makes that exact). -/
def findExifLoop (b : List Nat) : Nat → Int → Int
  | 0, _ => -1
  | fuel + 1, offset =>
    if offset < (b.length : Int) - 4 then
      if !(jsIndex b offset == some 0xFF) then
        findExifLoop b fuel (offset + 1)
      else if jsIndex b (offset + 1) == some 0xE1 && exifSig b offset then
        offset + 10
      else if (jsIndex b (offset + 1)).any (fun m => decide (0xE0 ≤ m) && decide (m ≤ 0xEF)) then
        findExifLoop b fuel (offset + 2 + segLength b offset)
      else if jsIndex b (offset + 1) == some 0xD8 || jsIndex b (offset + 1) == some 0xD9 then
        findExifLoop b fuel (offset + 2)
      else if jsIndex b (offset + 1) == some 0xDA then
        -1
      else
        findExifLoop b fuel (offset + 1)
    else -1

/-- `findExifInJpeg(buffer)`: scan from offset 2; `-1` means not found. -/
def findExifInJpeg (b : List Nat) : Int :=
  findExifLoop b (b.length + 1) 2

/-- Position `p` carries an APP1 marker whose payload starts with
`"Exif\0\0"`. -/
def ExifApp1At (b : List Nat) (p : Int) : Prop :=
  jsIndex b p = some 0xFF ∧ jsIndex b (p + 1) = some 0xE1 ∧ exifSig b p = true

theorem jsIndex_mem (b : List Nat) (i : Int) (v : Nat) (h : jsIndex b i = some v) :
    v ∈ b := by
  unfold jsIndex at h
  by_cases hneg : i < 0
  · simp [hneg] at h
  · simp only [hneg, if_false] at h
    exact List.get?_mem h

theorem byteAt_nonneg (b : List Nat) (i : Int) : 0 ≤ byteAt b i :=
  Int.ofNat_nonneg _

theorem byteAt_lt_of_valid (b : List Nat) (i : Int) (hv : ∀ x ∈ b, x < 256) :
    byteAt b i < 256 := by
  unfold byteAt
  rcases h : jsIndex b i with _ | v
  · decide
  · have := hv v (jsIndex_mem b i v h)
    simpa using this

theorem toInt32_eq_self {n : Int} (h0 : 0 ≤ n) (h : n < 2147483648) :
    toInt32 n = n := by
  unfold toInt32
  rw [Int.emod_eq_of_lt h0 (by omega), if_pos h]

theorem toUint32_eq_toNat {n : Int} (h0 : 0 ≤ n) (h : n < 4294967296) :
    toUint32 n = n.toNat := by
  unfold toUint32
  rw [Int.emod_eq_of_lt h0 h]

theorem jsShl8_bound {x : Int} (h0 : 0 ≤ x) (h : x < 256) :
    0 ≤ jsShl x 8 ∧ jsShl x 8 < 65536 := by
  unfold jsShl
  rw [toUint32_eq_toNat h0 (by omega)]
  have hx : x.toNat <<< 8 = x.toNat * 256 := by
    rw [Nat.shiftLeft_eq]
  rw [hx]
  have hcast : Int.ofNat (x.toNat * 256) = ((x.toNat * 256 : Nat) : Int) := rfl
  rw [hcast, toInt32_eq_self (by omega) (by omega)]
  omega

theorem jsOr_bound {a c : Int} (ha0 : 0 ≤ a) (ha : a < 65536) (hc0 : 0 ≤ c)
    (hc : c < 65536) : 0 ≤ jsOr a c ∧ jsOr a c < 65536 := by
  unfold jsOr
  rw [toUint32_eq_toNat ha0 (by omega), toUint32_eq_toNat hc0 (by omega)]
  have hlt : Nat.lor a.toNat c.toNat < 65536 := by
    have h16 : (65536 : Nat) = 2 ^ 16 := by norm_num
    rw [h16]
    exact Nat.or_lt_two_pow (by omega) (by omega)
  have hcast : Int.ofNat (Nat.lor a.toNat c.toNat) =
      ((Nat.lor a.toNat c.toNat : Nat) : Int) := rfl
  rw [hcast, toInt32_eq_self (by omega) (by omega)]
  omega

theorem segLength_bound (b : List Nat) (offset : Int) (hv : ∀ x ∈ b, x < 256) :
    0 ≤ segLength b offset ∧ segLength b offset < 65536 := by
  unfold segLength
  have h2 := jsShl8_bound (byteAt_nonneg b (offset + 2)) (byteAt_lt_of_valid b (offset + 2) hv)
  have h3a := byteAt_nonneg b (offset + 3)
  have h3b := byteAt_lt_of_valid b (offset + 3) hv
  exact jsOr_bound h2.1 h2.2 h3a (by omega)

/-- The fuel is irrelevant once it exceeds the remaining scan distance
(for real byte buffers, whose every byte is below 256): the loop advances
by at least 1 per iteration. -/
theorem findExifLoop_fuel_adequate (b : List Nat) (hv : ∀ x ∈ b, x < 256) :
    ∀ (fuel1 fuel2 : Nat) (offset : Int),
      ((b.length : Int) - 4 - offset).toNat < fuel1 →
      ((b.length : Int) - 4 - offset).toNat < fuel2 →
      findExifLoop b fuel1 offset = findExifLoop b fuel2 offset := by
  intro fuel1
  induction fuel1 with
  | zero => intro fuel2 offset h1 _; omega
  | succ fuel1 ih =>
    intro fuel2 offset h1 h2
    rcases fuel2 with _ | fuel2
    · omega
    by_cases hc : offset < (b.length : Int) - 4
    · have hm : 1 ≤ ((b.length : Int) - 4 - offset).toNat := by omega
      have hstep : ∀ d : Int, 1 ≤ d →
          ((b.length : Int) - 4 - (offset + d)).toNat < fuel1 ∧
          ((b.length : Int) - 4 - (offset + d)).toNat < fuel2 := by
        intro d hd
        omega
      show findExifLoop b (fuel1 + 1) offset = findExifLoop b (fuel2 + 1) offset
      unfold findExifLoop
      rw [if_pos hc, if_pos hc]
      by_cases hb : !(jsIndex b offset == some 0xFF)
      · rw [if_pos hb, if_pos hb]
        exact ih fuel2 (offset + 1) (hstep 1 le_rfl).1 (hstep 1 le_rfl).2
      · rw [if_neg hb, if_neg hb]
        by_cases he : jsIndex b (offset + 1) == some 0xE1 && exifSig b offset
        · rw [if_pos he, if_pos he]
        · rw [if_neg he, if_neg he]
          by_cases ha : (jsIndex b (offset + 1)).any
              (fun m => decide (0xE0 ≤ m) && decide (m ≤ 0xEF))
          · rw [if_pos ha, if_pos ha]
            have hsl := segLength_bound b offset hv
            exact ih fuel2 (offset + 2 + segLength b offset) (by omega) (by omega)
          · rw [if_neg ha, if_neg ha]
            by_cases hd : jsIndex b (offset + 1) == some 0xD8 ||
                jsIndex b (offset + 1) == some 0xD9
            · rw [if_pos hd, if_pos hd]
              exact ih fuel2 (offset + 2) (hstep 2 (by omega)).1 (hstep 2 (by omega)).2
            · rw [if_neg hd, if_neg hd]
              by_cases hda : jsIndex b (offset + 1) == some 0xDA
              · rw [if_pos hda, if_pos hda]
              · rw [if_neg hda, if_neg hda]
                exact ih fuel2 (offset + 1) (hstep 1 le_rfl).1 (hstep 1 le_rfl).2
    · show findExifLoop b (fuel1 + 1) offset = findExifLoop b (fuel2 + 1) offset
      unfold findExifLoop
      rw [if_neg hc, if_neg hc]

theorem findExifLoop_sound (b : List Nat) :
    ∀ (fuel : Nat) (offset r : Int), findExifLoop b fuel offset = r → r ≠ -1 →
      ∃ p : Int, r = p + 10 ∧ ExifApp1At b p := by
  intro fuel
  induction fuel with
  | zero =>
    intro offset r h hr
    unfold findExifLoop at h
    omega
  | succ fuel ih =>
    intro offset r h hr
    unfold findExifLoop at h
    by_cases hc : offset < (b.length : Int) - 4
    · rw [if_pos hc] at h
      by_cases hb : !(jsIndex b offset == some 0xFF)
      · rw [if_pos hb] at h
        exact ih (offset + 1) r h hr
      · rw [if_neg hb] at h
        by_cases he : jsIndex b (offset + 1) == some 0xE1 && exifSig b offset
        · rw [if_pos he] at h
          simp only [Bool.not_eq_true, Bool.not_eq_false, Bool.not_eq_false', Bool.not_eq_true', beq_iff_eq] at hb
          refine ⟨offset, by omega, hb, ?_, ?_⟩
          · have := (Bool.and_eq_true _ _).mp he
            simpa [beq_iff_eq] using this.1
          · exact ((Bool.and_eq_true _ _).mp he).2
        · rw [if_neg he] at h
          by_cases ha : (jsIndex b (offset + 1)).any
              (fun m => decide (0xE0 ≤ m) && decide (m ≤ 0xEF))
          · rw [if_pos ha] at h
            exact ih (offset + 2 + segLength b offset) r h hr
          · rw [if_neg ha] at h
            by_cases hd : jsIndex b (offset + 1) == some 0xD8 ||
                jsIndex b (offset + 1) == some 0xD9
            · rw [if_pos hd] at h
              exact ih (offset + 2) r h hr
            · rw [if_neg hd] at h
              by_cases hda : jsIndex b (offset + 1) == some 0xDA
              · rw [if_pos hda] at h
                omega
              · rw [if_neg hda] at h
                exact ih (offset + 1) r h hr
    · rw [if_neg hc] at h
      omega

theorem findExifLoop_complete (b : List Nat) (hno : ∀ p : Int, ¬ ExifApp1At b p) :
    ∀ (fuel : Nat) (offset : Int), findExifLoop b fuel offset = -1 := by
  intro fuel
  induction fuel with
  | zero => intro offset; rfl
  | succ fuel ih =>
    intro offset
    unfold findExifLoop
    by_cases hc : offset < (b.length : Int) - 4
    · rw [if_pos hc]
      by_cases hb : !(jsIndex b offset == some 0xFF)
      · rw [if_pos hb]
        exact ih (offset + 1)
      · rw [if_neg hb]
        by_cases he : jsIndex b (offset + 1) == some 0xE1 && exifSig b offset
        · exfalso
          apply hno offset
          simp only [Bool.not_eq_true, Bool.not_eq_false, Bool.not_eq_false', Bool.not_eq_true', beq_iff_eq] at hb
          refine ⟨hb, ?_, ((Bool.and_eq_true _ _).mp he).2⟩
          simpa [beq_iff_eq] using ((Bool.and_eq_true _ _).mp he).1
        · rw [if_neg he]
          by_cases ha : (jsIndex b (offset + 1)).any
              (fun m => decide (0xE0 ≤ m) && decide (m ≤ 0xEF))
          · rw [if_pos ha]
            exact ih (offset + 2 + segLength b offset)
          · rw [if_neg ha]
            by_cases hd : jsIndex b (offset + 1) == some 0xD8 ||
                jsIndex b (offset + 1) == some 0xD9
            · rw [if_pos hd]
              exact ih (offset + 2)
            · rw [if_neg hd]
              by_cases hda : jsIndex b (offset + 1) == some 0xDA
              · rw [if_pos hda]
              · rw [if_neg hda]
                exact ih (offset + 1)
    · rw [if_neg hc]

/-! ## extractExif pipeline (source: the body of `extractExif` after the
file read; the constructors record the source's distinct result objects:
`supported: false`, `Invalid JPEG file`, `No EXIF data found`,
`Invalid TIFF header`, and the assembled-record path carrying the merged
raw tag map that the assembler consumes). -/

inductive ExifOutcome where
  | notSupported
  | invalidJpeg
  | noExif
  | invalidTiff
  | record (tags : TagName → Option JSVal)

/-- `{...base, ...over}` / `Object.assign(base, over)`: keys of `over`
win. -/
def jsMergeTags (base over : TagName → Option JSVal) : TagName → Option JSVal :=
  fun k =>
    match over k with
    | some v => some v
    | none => base k

/-- The re-scan of IFD0's entries for the EXIF (0x8769) and GPS (0x8825)
pointer tags: `exifData` is replaced by the EXIF sub-IFD's map when the
EXIF pointer is met, and merged (`Object.assign`) with the GPS sub-IFD's
map when the GPS pointer is met; only the GPS decode passes
`isGPS = true`. -/
def exifAndGpsData (b : List Nat) (t i0 : Int) (le : Bool) : TagName → Option JSVal :=
  (List.range (readUShort b (t + i0) le).toNat).foldl
    (fun m j =>
      let entryOffset := t + i0 + 2 + (j : Int) * 12
      let tag := readUShort b entryOffset le
      let m1 := if tag = 0x8769 then
          parseIFD b t (readULong b (entryOffset + 8) le) le false
        else m
      if tag = 0x8825 then
        jsMergeTags m1 (parseIFD b t (readULong b (entryOffset + 8) le) le true)
      else m1)
    (fun _ => none)

/-- `allData = { ...ifd0, ...exifData }`. -/
def allDataOf (b : List Nat) (t i0 : Int) (le : Bool) : TagName → Option JSVal :=
  jsMergeTags (parseIFD b t i0 le false) (exifAndGpsData b t i0 le)

/-- The TIFF-header stage of `extractExif`: reject a negative origin as
`hasExif: false`, read the byte order (`"II"` little-endian) and the magic
42, then decode IFD0 and the sub-IFDs into the merged map. -/
def extractFromTiff (b : List Nat) (tiffOffset : Int) : ExifOutcome :=
  if tiffOffset < 0 then ExifOutcome.noExif
  else
    let le := readString b tiffOffset 2 == [0x49, 0x49]
    if readUShort b (tiffOffset + 2) le ≠ 42 then ExifOutcome.invalidTiff
    else ExifOutcome.record
      (allDataOf b tiffOffset (readULong b (tiffOffset + 4) le) le)

/-- `extractExif` on an in-memory buffer, given the file's lowercased
extension (the file read and its IO errors sit outside the embedding). -/
def extractExifFromBuffer (ext : String) (b : List Nat) : ExifOutcome :=
  if ext = ".jpg" ∨ ext = ".jpeg" then
    if jsIndex b 0 ≠ some 0xFF ∨ jsIndex b 1 ≠ some 0xD8 then ExifOutcome.invalidJpeg
    else extractFromTiff b (findExifInJpeg b)
  else if ext = ".tiff" ∨ ext = ".tif" then extractFromTiff b 0
  else ExifOutcome.notSupported

/-- A 12-byte JPEG whose APP1 segment at offset 2 carries `"Exif\0\0"`. -/
def exifJpegBuf : List Nat :=
  [0xFF, 0xD8, 0xFF, 0xE1, 0x00, 0x10, 0x45, 0x78, 0x69, 0x66, 0x00, 0x00]

/-- C6: on a buffer opening with the SOI marker, (i) any found result of
`findExifInJpeg` is exactly 10 bytes past the first byte of an APP1 marker
whose payload starts with `"Exif\0\0"`; (ii) if no such segment exists
anywhere in the buffer (hence none before the Start-Of-Scan marker at
which the scan stops, and none up to the end), the scan returns the
not-found value `-1` and `extractExif` reports `hasExif: false`
(`No EXIF data found`) rather than an error; and (iii) on the concrete
JPEG `exifJpegBuf`, whose APP1 marker starts at offset 2, the scan returns
`2 + 10 = 12`. -/
theorem findExifInJpeg_spec (b : List Nat) :
    (findExifInJpeg b ≠ -1 →
      ∃ p : Int, findExifInJpeg b = p + 10 ∧ ExifApp1At b p) ∧
    ((∀ p : Int, ¬ ExifApp1At b p) →
      findExifInJpeg b = -1 ∧
      (jsIndex b 0 = some 0xFF → jsIndex b 1 = some 0xD8 →
        extractExifFromBuffer ".jpg" b = ExifOutcome.noExif)) ∧
    findExifInJpeg exifJpegBuf = 12 ∧ ExifApp1At exifJpegBuf 2 := by
  refine ⟨?_, ?_, ?_, ?_⟩
  · intro h
    exact findExifLoop_sound b (b.length + 1) 2 (findExifInJpeg b) rfl h
  · intro hno
    have hm : findExifInJpeg b = -1 := findExifLoop_complete b hno (b.length + 1) 2
    refine ⟨hm, fun h0 h1 => ?_⟩
    unfold extractExifFromBuffer
    rw [if_pos (Or.inl rfl), if_neg (by simp [h0, h1])]
    unfold extractFromTiff
    rw [hm]
    rfl
  · decide
  · refine ⟨by decide, by decide, by decide⟩

/-- A JPEG with no APP1 segment at all (SOI directly followed by
Start-Of-Scan and some scan bytes). -/
def noExifJpegBuf : List Nat :=
  [0xFF, 0xD8, 0xFF, 0xDA, 0x00, 0x01, 0x02, 0x03]

/-- Closed witness for `findExifInJpeg_spec`. -/
theorem findExifInJpeg_spec_witness :
    findExifInJpeg noExifJpegBuf = -1 ∧
    extractExifFromBuffer ".jpg" noExifJpegBuf = ExifOutcome.noExif := by
  have hno : ∀ p : Int, ¬ ExifApp1At noExifJpegBuf p := by
    intro p hp
    have h225 : (0xE1 : Nat) ∈ noExifJpegBuf := jsIndex_mem _ _ _ hp.2.1
    revert h225
    decide
  have h := (findExifInJpeg_spec noExifJpegBuf).2.1 hno
  exact ⟨h.1, h.2 (by decide) (by decide)⟩

/-! ## Duplicate Grouping Engine (source: `findDuplicates`, lines that
build `duplicateGroups` from the surviving hash buckets).

A bucket member is a file for which `stat` succeeded: `path`, byte `size`,
and `modified` as milliseconds since the epoch (the source stores
`mtime.toISOString()` and compares `new Date(a.modified) - new
Date(b.modified)`, an order- and equality-faithful round-trip of the
timestamp).  The source's stable `Array.prototype.sort` is modelled by
insertion sort, which is stable for the same comparator; a stable sort's
output is unique for a total preorder, so the two agree.  The
`wastedSpaceHuman` display string (a floating-point logarithm rendering of
`wastedSpace`) is presentation only and not modelled. -/

structure FileInfo where
  path : String
  size : Nat
  modified : Nat
deriving DecidableEq

/-- The sort comparator: modification date ascending. -/
def mtimeLe (a b : FileInfo) : Prop :=
  a.modified ≤ b.modified

instance : DecidableRel mtimeLe :=
  fun a b => Nat.decLe a.modified b.modified

instance : IsTotal FileInfo mtimeLe :=
  ⟨fun a b => Nat.le_total a.modified b.modified⟩

instance : IsTrans FileInfo mtimeLe :=
  ⟨fun _ _ _ hab hbc => Nat.le_trans hab hbc⟩

/-- `groupFiles.sort((a, b) => new Date(a.modified) - new Date(b.modified))`. -/
def sortByModified (l : List FileInfo) : List FileInfo :=
  List.insertionSort mtimeLe l

/-- `slice(1).reduce((sum, f) => sum + (f.size || 0), 0)` over a list. -/
def sumSizes (l : List FileInfo) : Nat :=
  (l.map (fun f => f.size)).sum

structure DupGroup where
  hash : String
  count : Nat
  files : List FileInfo
  original : Option FileInfo
  duplicates : List FileInfo
  wastedSpace : Nat
deriving DecidableEq

/-- One pushed group (source lines 255-272): sort the bucket by
modification date, the head is the original, the tail the duplicates,
wasted space the sum of the duplicates' sizes. -/
def buildGroup (hash : String) (fileList : List FileInfo) : DupGroup :=
  let sorted := sortByModified fileList
  { hash := hash
    count := fileList.length
    files := sorted
    original := sorted.head?
    duplicates := sorted.tail
    wastedSpace := sumSizes sorted.tail }

/-- The groups-descending comparator `(a, b) => b.wastedSpace - a.wastedSpace`. -/
def wastedGe (a b : DupGroup) : Prop :=
  b.wastedSpace ≤ a.wastedSpace

instance : DecidableRel wastedGe :=
  fun a b => Nat.decLe b.wastedSpace a.wastedSpace

/-- The bucket-to-groups pipeline of `findDuplicates`: keep hash buckets
with at least two members, build a group from each, sort by wasted space
descending. -/
def findDuplicatesGroups (buckets : List (String × List FileInfo)) : List DupGroup :=
  List.insertionSort wastedGe
    ((buckets.filter (fun p => 1 < p.2.length)).map (fun p => buildGroup p.1 p.2))

/-- The first member attaining the minimal modification time — the claim's
"earliest modification time, ties broken by stable first-encountered
order". -/
def firstMinByModified : List FileInfo → Option FileInfo
  | [] => none
  | a :: l =>
    match firstMinByModified l with
    | none => some a
    | some m => if a.modified ≤ m.modified then some a else some m

/-- The head of the stable ascending sort is the first-encountered
minimum. -/
theorem head_sortByModified (l : List FileInfo) :
    (sortByModified l).head? = firstMinByModified l := by
  induction l with
  | nil => rfl
  | cons a l ih =>
    have hstep : sortByModified (a :: l) =
        List.orderedInsert mtimeLe a (sortByModified l) := rfl
    rw [hstep]
    rcases hs : sortByModified l with _ | ⟨b, t⟩
    · have hl : l = [] := by
        have hp := List.perm_insertionSort mtimeLe l
        rw [show List.insertionSort mtimeLe l = sortByModified l from rfl, hs] at hp
        exact (List.Perm.symm hp).eq_nil
      subst hl
      rfl
    · have hb : firstMinByModified l = some b := by
        rw [← ih, hs]
        rfl
      have hfm : firstMinByModified (a :: l) =
          if a.modified ≤ b.modified then some a else some b := by
        simp only [firstMinByModified, hb]
      rw [hfm]
      by_cases hab : a.modified ≤ b.modified
      · rw [List.orderedInsert_of_le mtimeLe t hab, if_pos hab]
        rfl
      · have hoi : List.orderedInsert mtimeLe a (b :: t) =
            b :: List.orderedInsert mtimeLe a t := by
          simp only [List.orderedInsert]
          exact if_neg (hab : ¬ mtimeLe a b)
        rw [hoi, if_neg hab]
        rfl

/-- C5: every group produced from the hash buckets has at least two
members, its `count` is the member count, exactly one designated original
(the `original` field, which is the first-encountered member with the
earliest modification time in its bucket, hence no later than every
member), `duplicates` is exactly the rest, and `wastedSpace` is the sum of
the duplicates' sizes — equivalently the bucket's total size minus the
original's size, so the original's size is never counted. -/
theorem findDuplicates_groups_spec (buckets : List (String × List FileInfo))
    (g : DupGroup) (hg : g ∈ findDuplicatesGroups buckets) :
    2 ≤ g.count ∧ g.count = g.files.length ∧ g.duplicates = g.files.tail ∧
    g.wastedSpace = sumSizes g.duplicates ∧
    ∃ bucket ∈ buckets, bucket.2.length = g.count ∧ g.files.Perm bucket.2 ∧
      ∃ o, g.original = some o ∧ firstMinByModified bucket.2 = some o ∧
        (∀ f ∈ bucket.2, o.modified ≤ f.modified) ∧
        g.wastedSpace + o.size = sumSizes bucket.2 := by
  have hg1 : g ∈ (buckets.filter (fun p => 1 < p.2.length)).map
      (fun p => buildGroup p.1 p.2) := (List.mem_insertionSort wastedGe).mp hg
  obtain ⟨p, hpf, hgb⟩ := List.mem_map.mp hg1
  obtain ⟨hpmem, hplen'⟩ := List.mem_filter.mp hpf
  have hplen : 1 < p.2.length := by simpa using hplen'
  subst hgb
  have hperm : (sortByModified p.2).Perm p.2 := List.perm_insertionSort mtimeLe p.2
  have hlen2 : (sortByModified p.2).length = p.2.length :=
    List.length_insertionSort mtimeLe p.2
  rcases hsort : sortByModified p.2 with _ | ⟨o, rest⟩
  · rw [hsort] at hlen2
    simp at hlen2
    omega
  · have hfm : firstMinByModified p.2 = some o := by
      rw [← head_sortByModified, hsort]
      rfl
    have hsorted : List.Sorted mtimeLe (o :: rest) := by
      rw [← hsort]
      exact List.sorted_insertionSort mtimeLe p.2
    have hmin : ∀ f ∈ p.2, o.modified ≤ f.modified := by
      intro f hf
      have hf2 : f ∈ o :: rest := by
        rw [← hsort]
        exact hperm.mem_iff.mpr hf
      rcases List.mem_cons.mp hf2 with hfo | hfr
      · rw [hfo]
      · exact List.rel_of_sorted_cons hsorted f hfr
    have hsumperm : sumSizes (sortByModified p.2) = sumSizes p.2 :=
      List.Perm.sum_eq (List.Perm.map _ hperm)
    have hsum : sumSizes rest + o.size = sumSizes p.2 := by
      rw [← hsumperm, hsort]
      simp [sumSizes]
      omega
    refine ⟨?_, ?_, ?_, ?_, p, hpmem, ?_, ?_, o, ?_, hfm, hmin, ?_⟩
    · show 2 ≤ p.2.length
      omega
    · show p.2.length = (sortByModified p.2).length
      omega
    · rfl
    · rfl
    · rfl
    · show (sortByModified p.2).Perm p.2
      exact hperm
    · show (sortByModified p.2).head? = some o
      rw [hsort]
      rfl
    · show sumSizes (sortByModified p.2).tail + o.size = sumSizes p.2
      rw [hsort]
      exact hsum

/-- A concrete two-member bucket: `b` is older (modified 3) than `a`
(modified 5), so `b` is the original and `a`'s 10 bytes are the waste. -/
def demoFileList : List FileInfo :=
  [{ path := "a", size := 10, modified := 5 }, { path := "b", size := 12, modified := 3 }]

/-- Closed witness for `findDuplicates_groups_spec`. -/
theorem findDuplicates_groups_spec_witness :
    2 ≤ (buildGroup "h" demoFileList).count ∧
    (buildGroup "h" demoFileList).wastedSpace =
      sumSizes (buildGroup "h" demoFileList).duplicates :=
  ⟨(findDuplicates_groups_spec [("h", demoFileList)] (buildGroup "h" demoFileList)
      (by decide)).1,
    (findDuplicates_groups_spec [("h", demoFileList)] (buildGroup "h" demoFileList)
      (by decide)).2.2.2.1⟩

/-! ## Partial hashing strategy (source: `calculatePartialHash`).

The MD5 state of `node:crypto` is a function of the concatenated stream of
`update` calls; the embedding keeps that stream — the decimal string of the
byte length followed by the sampled chunks — and abstracts the digest as an
arbitrary function `md5` of it. -/

/-- `buffer.slice(0, Math.min(chunkSize, buffer.length))`. -/
def firstChunkSlice (c : Nat) (b : List Nat) : List Nat :=
  jsSlice b 0 (min (c : Int) (b.length : Int))

/-- `buffer.slice(-chunkSize)` (the one-argument slice ends at the
buffer's length). -/
def lastChunkSlice (c : Nat) (b : List Nat) : List Nat :=
  jsSlice b (-(c : Int)) (b.length : Int)

/-- `Math.floor(buffer.length / 2) - Math.floor(chunkSize / 2)`. -/
def midStart (c : Nat) (b : List Nat) : Int :=
  ((b.length / 2 : Nat) : Int) - ((c / 2 : Nat) : Int)

/-- `buffer.slice(midStart, midStart + chunkSize)`. -/
def midChunkSlice (c : Nat) (b : List Nat) : List Nat :=
  jsSlice b (midStart c b) (midStart c b + (c : Int))

/-- The stream of `hash.update` calls of `calculatePartialHash`: the
decimal string of the length, the first chunk, the last chunk only when
`length > chunkSize * 2`, the middle chunk only when
`length > chunkSize * 3`. -/
def partialHashInput (chunkSize : Nat) (b : List Nat) : String × List Nat :=
  (toString b.length,
    firstChunkSlice chunkSize b ++
    (if chunkSize * 2 < b.length then lastChunkSlice chunkSize b else []) ++
    (if chunkSize * 3 < b.length then midChunkSlice chunkSize b else []))

/-- `calculatePartialHash(filePath, chunkSize)` on the file's bytes, with
the cryptographic digest abstracted as a function of the consumed
stream. -/
def calculatePartialHash (md5 : String × List Nat → String) (chunkSize : Nat)
    (b : List Nat) : String :=
  md5 (partialHashInput chunkSize b)

theorem partialHashInput_congr (c : Nat) (b1 b2 : List Nat)
    (hlen : b1.length = b2.length)
    (hfirst : firstChunkSlice c b1 = firstChunkSlice c b2)
    (hlast : c * 2 < b1.length → lastChunkSlice c b1 = lastChunkSlice c b2)
    (hmid : c * 3 < b1.length → midChunkSlice c b1 = midChunkSlice c b2) :
    partialHashInput c b1 = partialHashInput c b2 := by
  unfold partialHashInput
  rw [hlen, hfirst]
  have e2 : (if c * 2 < b2.length then lastChunkSlice c b1 else []) =
      (if c * 2 < b2.length then lastChunkSlice c b2 else []) := by
    by_cases h2 : c * 2 < b2.length
    · rw [if_pos h2, if_pos h2]
      exact hlast (by omega)
    · rw [if_neg h2, if_neg h2]
  have e3 : (if c * 3 < b2.length then midChunkSlice c b1 else []) =
      (if c * 3 < b2.length then midChunkSlice c b2 else []) := by
    by_cases h3 : c * 3 < b2.length
    · rw [if_pos h3, if_pos h3]
      exact hmid (by omega)
    · rw [if_neg h3, if_neg h3]
  rw [e2, e3]

theorem jsClamp_of_nonneg (n : Nat) (x : Int) (h0 : 0 ≤ x) :
    jsClamp n x = min x.toNat n := by
  unfold jsClamp
  rw [if_neg (by omega)]

theorem jsClamp_of_neg (n : Nat) (x : Int) (h0 : x < 0) :
    jsClamp n x = ((n : Int) + x).toNat := by
  unfold jsClamp
  rw [if_pos h0]

theorem take_set_of_le (b : List Nat) (i n v : Nat) (h : n ≤ i) :
    (b.set i v).take n = b.take n := by
  rw [List.set_take]
  apply List.set_eq_of_length_le
  rw [List.length_take]
  omega

theorem drop_set_of_lt (b : List Nat) (i n v : Nat) (h : i < n) :
    (b.set i v).drop n = b.drop n := by
  rw [List.drop_set, if_pos h]

theorem slice_core_set_outside (b : List Nat) (i v s e : Nat)
    (h : i < s ∨ e ≤ i) :
    ((b.set i v).take e).drop s = (b.take e).drop s := by
  rcases h with h | h
  · rw [List.set_take, List.drop_set, if_pos h]
  · rw [take_set_of_le b i e v h]

/-- C9: `calculatePartialHash` is deterministic, is a function only of the
byte length, the first chunk, the last chunk (consumed only when the
length exceeds twice the chunk size) and the chunk centred at the midpoint
(consumed only when the length exceeds three times the chunk size) — any
two equal-length contents agreeing on the sampled regions hash
identically under every digest function — and changing one byte outside
every sampled region of a buffer longer than three chunk sizes leaves the
hash unchanged. -/
theorem calculatePartialHash_spec :
    (∀ (md5 : String × List Nat → String) (c : Nat) (b : List Nat),
      calculatePartialHash md5 c b = calculatePartialHash md5 c b) ∧
    (∀ (md5 : String × List Nat → String) (c : Nat) (b1 b2 : List Nat),
      b1.length = b2.length →
      firstChunkSlice c b1 = firstChunkSlice c b2 →
      (c * 2 < b1.length → lastChunkSlice c b1 = lastChunkSlice c b2) →
      (c * 3 < b1.length → midChunkSlice c b1 = midChunkSlice c b2) →
      calculatePartialHash md5 c b1 = calculatePartialHash md5 c b2) ∧
    (∀ (md5 : String × List Nat → String) (c : Nat) (b : List Nat) (i v : Nat),
      0 < c → c * 3 < b.length → c ≤ i → i + c < b.length →
      (i < b.length / 2 - c / 2 ∨ b.length / 2 - c / 2 + c ≤ i) →
      calculatePartialHash md5 c (b.set i v) = calculatePartialHash md5 c b) := by
  have key : ∀ (c : Nat) (b : List Nat) (i v : Nat),
      0 < c → c * 3 < b.length → c ≤ i → i + c < b.length →
      (i < b.length / 2 - c / 2 ∨ b.length / 2 - c / 2 + c ≤ i) →
      partialHashInput c (b.set i v) = partialHashInput c b := by
    intro c b i v hc h3 hci hic hmid
    have hcb : c ≤ b.length := by omega
    have hlen : (b.set i v).length = b.length := List.length_set b i v
    apply partialHashInput_congr
    · exact hlen
    · unfold firstChunkSlice jsSlice
      rw [hlen]
      apply slice_core_set_outside
      right
      rw [jsClamp_of_nonneg _ _ (by omega)]
      omega
    · intro _
      unfold lastChunkSlice jsSlice
      rw [hlen]
      apply slice_core_set_outside
      left
      rw [jsClamp_of_neg _ _ (by omega)]
      omega
    · intro _
      unfold midChunkSlice midStart jsSlice
      rw [hlen]
      apply slice_core_set_outside
      have hms : 0 ≤ ((b.length / 2 : Nat) : Int) - ((c / 2 : Nat) : Int) := by
        have : c / 2 ≤ b.length / 2 := Nat.div_le_div_right (by omega)
        omega
      rw [jsClamp_of_nonneg _ _ hms, jsClamp_of_nonneg _ _ (by omega)]
      rcases hmid with hm | hm
      · left
        omega
      · right
        omega
  refine ⟨fun _ _ _ => rfl, ?_, ?_⟩
  · intro md5 c b1 b2 hlen hfirst hlast hmid
    unfold calculatePartialHash
    rw [partialHashInput_congr c b1 b2 hlen hfirst hlast hmid]
  · intro md5 c b i v hc h3 hci hic hm
    unfold calculatePartialHash
    rw [key c b i v hc h3 hci hic hm]

/-- Closed witness for `calculatePartialHash_spec`: with chunk size 1 over
4-byte buffers, index 1 lies outside the first (`[0,1)`), middle (`[2,3)`)
and last (`[3,4)`) sampled regions, so the two buffers differing only
there hash identically, and setting that byte leaves the hash
unchanged. -/
theorem calculatePartialHash_spec_witness :
    calculatePartialHash (fun p => toString p.2) 1 [9, 7, 5, 6] =
      calculatePartialHash (fun p => toString p.2) 1 [9, 8, 5, 6] ∧
    calculatePartialHash (fun p => toString p.2) 1 ([9, 7, 5, 6].set 1 8) =
      calculatePartialHash (fun p => toString p.2) 1 [9, 7, 5, 6] :=
  ⟨calculatePartialHash_spec.2.1 (fun p => toString p.2) 1 [9, 7, 5, 6] [9, 8, 5, 6]
      (by decide) (by decide) (by decide) (by decide),
    calculatePartialHash_spec.2.2 (fun p => toString p.2) 1 [9, 7, 5, 6] 1 8
      (by decide) (by decide) (by decide) (by decide) (by decide)⟩
